import Mathlib

/-!
# Verification of `greaper::SlimTaskScheduler`

Shallow embedding of `src/Public/Base/SlimTaskScheduler.inl` (a slim dynamic
thread-pool task scheduler) and proofs about its operations.

Modelling conventions:
* A worker slot (`PThread`) is `Option Nat`: `some th` is a live thread handle,
  `none` is a null slot (`reset()` in the source).
* The weak `m_ThreadManager` reference is `Option Nat`: `none` means expired.
* A task (`SlimTask`, a `std::packaged_task<void()>`) is identified abstractly
  by a `Nat`; the scheduler never inspects a task, it only moves and invokes it.
* Task slots (`SlimTask*` storage) are `Nat` ids; `nextSlot` plays the role of
  the allocator (`AllocT<SlimTask>()`), and `freeTaskPool` is the LIFO free
  list `m_FreeTaskPool` (reuse from the back, as `back()`/`pop_back()` do).
* Thread creation (`IThreadManager::CreateThread`) is an oracle
  `ct : Nat → Except String Nat` mapping the worker index to a thread handle
  or a failure message.
* `EmptyResult` values are `Option String`: `none` is success, `some msg` is
  `Result::CreateFailure(msg)`.
-/

namespace Greaper

/-- A `SlimTask`, identified abstractly (the scheduler never inspects it). -/
abbrev SlimTask := Nat

/-- The mutable state of a `SlimTaskScheduler`:
`workers` is `m_TaskWorkers`, `taskQueue` is `m_TaskQueue` (front = head,
holding (slot id, task) pairs), `freeTaskPool` is `m_FreeTaskPool`,
`nextSlot` models the allocator, `allowGrowth` is `m_AllowGrowth`, and
`threadMgr` is the weak `m_ThreadManager` (`none` = expired). -/
structure Sched where
  workers : List (Option Nat)
  taskQueue : List (Nat × SlimTask)
  freeTaskPool : List Nat
  nextSlot : Nat
  allowGrowth : Bool
  threadMgr : Option Nat
  deriving DecidableEq, Repr

/-- Failure message of `SetWorkerCount` when growth is forbidden (line 42). -/
def growthDisabledMsg : String :=
  "Trying to add more workers to a SlimTaskScheduler, but it has forbidden the growth."

/-- Failure message of `SetWorkerCount` when the manager expired (line 45). -/
def threadMgrExpiredMsg : String :=
  "Trying to add more workers to a SlimTaskScheduler, but the ThreadManager has expired."

/-- Failure message of `AddTask` when no worker is available (line 93). -/
def noAvailableWorkersMsg : String :=
  "Couldn't add the task, no available workers."

/-- Embeds `SlimTaskScheduler::AreThereAnyAvailableWorker` (lines 200-211): false on an
empty pool, otherwise true iff some slot is non-null. -/
def areThereAnyAvailableWorker (workers : List (Option Nat)) : Bool :=
  if workers.isEmpty then
    false
  else
    workers.any fun w => w.isSome

/-- Embeds `SlimTaskScheduler::GetWorkerCount` (line 26). -/
def getWorkerCount (s : Sched) : Nat :=
  s.workers.length

/-- Embeds `SlimTaskScheduler::IsGrowthEnabled` (lines 133-137). -/
def isGrowthEnabled (s : Sched) : Bool :=
  s.allowGrowth

/-- Embeds `SlimTaskScheduler::EnableGrowth` (lines 139-143). -/
def enableGrowth (s : Sched) (enable : Bool) : Sched :=
  { s with allowGrowth := enable }

/-- The growth loop of `SetWorkerCount` (lines 48-58):
`for (i = size; i < count; ++i)` creating one thread per missing slot; on the
first creation failure it stops and reports that failure, keeping the workers
already pushed. `i` is the next worker index, `fuel` is `count - i`. -/
def growLoop (ct : Nat → Except String Nat) (workers : List (Option Nat)) :
    Nat → Nat → List (Option Nat) × Option String
  | _, 0 => (workers, none)
  | i, fuel + 1 =>
    match ct i with
    | .error e => (workers, some e)
    | .ok th => growLoop ct (workers ++ [some th]) (i + 1) fuel

/-- Embeds `SlimTaskScheduler::SetWorkerCount` (lines 28-86), functional effect.
Equal count: no-op success. Growth: gated on `allowGrowth` then on the
manager being alive, then the growth loop. Shrink (lines 60-84): each pass
resets the tail slot, joins its thread and erases it, so the surviving
workers are the first `count` ones. -/
def setWorkerCount (ct : Nat → Except String Nat) (s : Sched) (count : Nat) :
    Sched × Option String :=
  if s.workers.length = count then
    (s, none)
  else if s.workers.length < count then
    if s.allowGrowth = false then
      (s, some growthDisabledMsg)
    else if s.threadMgr = none then
      (s, some threadMgrExpiredMsg)
    else
      let r := growLoop ct s.workers s.workers.length (count - s.workers.length)
      ({ s with workers := r.1 }, r.2)
  else
    ({ s with workers := s.workers.take count }, none)

/-- Embeds `SlimTaskScheduler::AddTask` (lines 88-118): reject when no worker is
available; otherwise take a slot from the back of the free pool (or allocate a
fresh one), move the task into it and append it at the queue tail. -/
def addTask (s : Sched) (task : SlimTask) : Except String Sched :=
  if !areThereAnyAvailableWorker s.workers then
    .error noAvailableWorkersMsg
  else
    match s.freeTaskPool.getLast? with
    | none =>
      .ok { s with nextSlot := s.nextSlot + 1,
                   taskQueue := s.taskQueue ++ [(s.nextSlot, task)] }
    | some p =>
      .ok { s with freeTaskPool := s.freeTaskPool.dropLast,
                   taskQueue := s.taskQueue ++ [(p, task)] }

/-- Embeds `SlimTaskScheduler::Stop` (lines 186-198): force `SetWorkerCount(0)`, then
run every still-queued task on the calling thread in queue order and destroy
its slot, clear the queue, and deallocate every free-pool slot. Returns the
final state and the list of tasks executed during the stop, in order. -/
def stop (ct : Nat → Except String Nat) (s : Sched) : Sched × List SlimTask :=
  let s0 := (setWorkerCount ct s 0).1
  ({ s0 with taskQueue := [], freeTaskPool := [] }, s0.taskQueue.map Prod.snd)

/-- Embeds `SlimTaskScheduler::CanWorkerContinueWorking` (lines 227-231):
`m_TaskWorkers.size() > workerID && m_TaskWorkers[workerID] != nullptr`. -/
def canWorkerContinueWorking (s : Sched) (workerID : Nat) : Bool :=
  decide (workerID < s.workers.length) && (s.workers.getD workerID none).isSome

/-- Outcome of one pass of the worker loop `WorkerFn` (lines 233-278). -/
inductive WorkerStepResult where
  | terminated (s : Sched)
  | waiting (s : Sched)
  | executed (s : Sched) (t : SlimTask)
  deriving DecidableEq, Repr

/-- Whether a worker-loop pass exited the loop. -/
def WorkerStepResult.isTerminated : WorkerStepResult → Bool
  | .terminated _ => true
  | _ => false

/-- One pass of `SlimTaskScheduler::WorkerFn` (lines 235-277), decided at the
state seen after the wait loop: if the worker may not continue it breaks out of
the loop; else if the queue is non-empty it pops the head task, runs it and
returns its slot to the back of the free pool; else it keeps waiting. -/
def workerStep (s : Sched) (id : Nat) : WorkerStepResult :=
  if canWorkerContinueWorking s id = false then
    .terminated s
  else
    match s.taskQueue with
    | [] => .waiting s
    | (slot, t) :: rest =>
      .executed { s with taskQueue := rest, freeTaskPool := s.freeTaskPool ++ [slot] } t

/-- The wait loop of `WorkerFn` (lines 244-248):
`while (queue.empty() && canWork) { wait; canWork = CanWorkerContinueWorking; }`.
`snaps` are the scheduler states observed at the initial check and at each
subsequent wake of `m_TaskQueueSignal`; the loop leaves at the first snapshot
where the queue is non-empty or the worker may no longer continue. -/
def waitLoop (id : Nat) : List Sched → Option Sched
  | [] => none
  | s :: rest =>
    if s.taskQueue.isEmpty && canWorkerContinueWorking s id then
      waitLoop id rest
    else
      some s

/-- External operations driving a scheduler: a caller thread submitting a task
(`AddTask`), or one pass of worker `id`'s loop (`WorkerFn`). -/
inductive SchedOp where
  | submit (t : SlimTask)
  | work (id : Nat)
  deriving DecidableEq, Repr

/-- A scheduler run: the current state, the tasks already executed by workers
(in execution order), and the tasks accepted by `AddTask` (in submission
order). -/
structure RunState where
  sched : Sched
  executed : List SlimTask
  accepted : List SlimTask
  deriving DecidableEq, Repr

/-- One driving step: a rejected submission and a waiting or terminated worker
pass leave the run unchanged; an accepted submission records the task as
accepted; an executing worker pass records the popped task as executed. -/
def runStep (r : RunState) : SchedOp → RunState
  | .submit t =>
    match addTask r.sched t with
    | .error _ => r
    | .ok s' => { r with sched := s', accepted := r.accepted ++ [t] }
  | .work id =>
    match workerStep r.sched id with
    | .terminated _ => r
    | .waiting _ => r
    | .executed s' t => { r with sched := s', executed := r.executed ++ [t] }

/-- Run a sequence of driving operations. -/
def runOps (r : RunState) : List SchedOp → RunState
  | [] => r
  | op :: rest => runOps (runStep r op) rest

/-- The tasks submitted by a sequence of operations, in submission order. -/
def submits : List SchedOp → List SlimTask
  | [] => []
  | .submit t :: rest => t :: submits rest
  | .work _ :: rest => submits rest

/-- A successful `AddTask` leaves the worker pool and binding alone and appends
exactly the submitted task at the queue tail. -/
lemma addTask_ok_effect {s s' : Sched} {t : SlimTask} (h : addTask s t = .ok s') :
    s'.workers = s.workers ∧ s'.threadMgr = s.threadMgr ∧
      s'.taskQueue.map Prod.snd = s.taskQueue.map Prod.snd ++ [t] := by
  unfold addTask at h
  by_cases hav : areThereAnyAvailableWorker s.workers
  · simp [hav] at h
    cases hpool : s.freeTaskPool.getLast? with
    | none => rw [hpool] at h; cases h; simp
    | some p => rw [hpool] at h; cases h; simp
  · simp [hav] at h

/-- Lemma: `AddTask` succeeds whenever an available worker exists. -/
lemma addTask_ok_of_available {s : Sched} (t : SlimTask)
    (h : areThereAnyAvailableWorker s.workers = true) :
    ∃ s', addTask s t = .ok s' := by
  cases hpool : s.freeTaskPool.getLast? with
  | none =>
    refine ⟨{ s with nextSlot := s.nextSlot + 1, taskQueue := s.taskQueue ++ [(s.nextSlot, t)] }, ?_⟩
    simp [addTask, h, hpool]
  | some p =>
    refine ⟨{ s with freeTaskPool := s.freeTaskPool.dropLast, taskQueue := s.taskQueue ++ [(p, t)] }, ?_⟩
    simp [addTask, h, hpool]

/-- An executing worker pass leaves the pool alone and pops exactly the head
task of the queue. -/
lemma workerStep_executed_effect {s s' : Sched} {id : Nat} {t : SlimTask}
    (h : workerStep s id = .executed s' t) :
    s'.workers = s.workers ∧
      s.taskQueue.map Prod.snd = t :: s'.taskQueue.map Prod.snd := by
  unfold workerStep at h
  by_cases hc : canWorkerContinueWorking s id = false
  · simp [hc] at h
  · simp [hc] at h
    cases hq : s.taskQueue with
    | nil => rw [hq] at h; cases h
    | cons hd tl =>
      rw [hq] at h
      cases hd with
      | mk slot t0 => cases h with | refl => simp [hq]

/-- No driving operation ever changes the worker pool. -/
lemma runOps_workers (ops : List SchedOp) :
    ∀ r : RunState, (runOps r ops).sched.workers = r.sched.workers := by
  induction ops with
  | nil => intro r; rfl
  | cons op rest ih =>
    intro r
    rw [runOps, ih]
    cases op with
    | submit t =>
      cases hadd : addTask r.sched t with
      | error e => simp [runStep, hadd]
      | ok s' => simp [runStep, hadd, (addTask_ok_effect hadd).1]
    | work id =>
      cases hstep : workerStep r.sched id with
      | terminated s' => simp [runStep, hstep]
      | waiting s' => simp [runStep, hstep]
      | executed s' t => simp [runStep, hstep, (workerStep_executed_effect hstep).1]

/-- Queue invariant of a run: the tasks executed so far followed by the tasks
still pending equal the accepted tasks in submission order. -/
lemma runOps_invariant (ops : List SchedOp) :
    ∀ r : RunState,
      r.executed ++ r.sched.taskQueue.map Prod.snd = r.accepted →
      (runOps r ops).executed ++ (runOps r ops).sched.taskQueue.map Prod.snd
        = (runOps r ops).accepted := by
  induction ops with
  | nil => intro r h; exact h
  | cons op rest ih =>
    intro r h
    rw [runOps]
    refine ih _ ?_
    cases op with
    | submit t =>
      cases hadd : addTask r.sched t with
      | error e => simpa [runStep, hadd] using h
      | ok s' =>
        have he := (addTask_ok_effect hadd).2.2
        simp only [runStep, hadd]
        rw [he, ← List.append_assoc, h]
    | work id =>
      cases hstep : workerStep r.sched id with
      | terminated s' => simpa [runStep, hstep] using h
      | waiting s' => simpa [runStep, hstep] using h
      | executed s' t =>
        have he := (workerStep_executed_effect hstep).2
        simp only [runStep, hstep]
        rw [← h, he]
        simp

/-- With an available worker present, every submission is accepted: the
accepted list grows by exactly the submitted tasks. -/
lemma runOps_accepted_of_available (ops : List SchedOp) :
    ∀ r : RunState, areThereAnyAvailableWorker r.sched.workers = true →
      (runOps r ops).accepted = r.accepted ++ submits ops := by
  induction ops with
  | nil => intro r _; simp [runOps, submits]
  | cons op rest ih =>
    intro r hav
    rw [runOps]
    cases op with
    | submit t =>
      obtain ⟨s', hs'⟩ := addTask_ok_of_available t hav
      have hw := (addTask_ok_effect hs').1
      have hstep : runStep r (.submit t)
          = { r with sched := s', accepted := r.accepted ++ [t] } := by
        simp [runStep, hs']
      rw [hstep, ih _ (by simpa [hw] using hav)]
      simp [submits]
    | work id =>
      have hw : (runStep r (.work id)).sched.workers = r.sched.workers := by
        cases hstep : workerStep r.sched id with
        | terminated s' => simp [runStep, hstep]
        | waiting s' => simp [runStep, hstep]
        | executed s' t => simp [runStep, hstep, (workerStep_executed_effect hstep).1]
      have hacc : (runStep r (.work id)).accepted = r.accepted := by
        cases hstep : workerStep r.sched id with
        | terminated s' => simp [runStep, hstep]
        | waiting s' => simp [runStep, hstep]
        | executed s' t => simp [runStep, hstep]
      rw [ih _ (by rw [hw]; exact hav), hacc, submits]

/-- Lemma: `SetWorkerCount` never touches the task queue. -/
lemma setWorkerCount_taskQueue (ct : Nat → Except String Nat) (s : Sched) (count : Nat) :
    (setWorkerCount ct s count).1.taskQueue = s.taskQueue := by
  unfold setWorkerCount
  repeat' split
  all_goals simp

/-- After `SetWorkerCount(0)` the worker pool is empty. -/
lemma setWorkerCount_zero (ct : Nat → Except String Nat) (s : Sched) :
    (setWorkerCount ct s 0).1.workers = [] := by
  unfold setWorkerCount
  by_cases h : s.workers.length = 0
  · simp [h, List.length_eq_zero.mp h]
  · have h2 : ¬ s.workers.length < 0 := by omega
    simp [h, h2]

/-- When every thread creation succeeds, the growth loop reports success and
adds exactly `fuel` workers. -/
lemma growLoop_ok (ct : Nat → Except String Nat) :
    ∀ (fuel i : Nat) (ws : List (Option Nat)), (∀ j, ∃ th, ct j = .ok th) →
      (growLoop ct ws i fuel).2 = none ∧
        (growLoop ct ws i fuel).1.length = ws.length + fuel := by
  intro fuel
  induction fuel with
  | zero => intro i ws _; simp [growLoop]
  | succ n ih =>
    intro i ws hok
    obtain ⟨th, hth⟩ := hok i
    have h2 := ih (i + 1) (ws ++ [some th]) hok
    simp only [growLoop, hth]
    refine ⟨h2.1, ?_⟩
    rw [h2.2, List.length_append]
    simp
    omega

/-- When the `k`-th thread creation fails after `k` successes, the growth loop
reports that failure and keeps exactly the `k` workers already created. -/
lemma growLoop_fail (ct : Nat → Except String Nat) :
    ∀ (fuel k i : Nat) (ws : List (Option Nat)) (e : String), k < fuel →
      (∀ j, j < k → ∃ th, ct (i + j) = .ok th) →
      ct (i + k) = .error e →
      (growLoop ct ws i fuel).2 = some e ∧
        (growLoop ct ws i fuel).1.length = ws.length + k := by
  intro fuel
  induction fuel with
  | zero => intro k i ws e hk _ _; exact absurd hk (Nat.not_lt_zero k)
  | succ n ih =>
    intro k i ws e hk hsucc hfail
    cases k with
    | zero =>
      rw [Nat.add_zero] at hfail
      simp only [growLoop, hfail]
      simp
    | succ m =>
      obtain ⟨th, hth⟩ := hsucc 0 (by omega)
      rw [Nat.add_zero] at hth
      simp only [growLoop, hth]
      have hsucc' : ∀ j, j < m → ∃ th, ct (i + 1 + j) = .ok th := by
        intro j hj
        have harith : i + (j + 1) = i + 1 + j := by omega
        have h3 := hsucc (j + 1) (by omega)
        rwa [harith] at h3
      have hfail' : ct (i + 1 + m) = .error e := by
        have harith : i + (m + 1) = i + 1 + m := by omega
        rwa [harith] at hfail
      have h4 := ih m (i + 1) (ws ++ [some th]) e (by omega) hsucc' hfail'
      refine ⟨h4.1, ?_⟩
      rw [h4.2, List.length_append]
      simp
      omega

/-- A pool that is empty or all-null has no available worker. -/
lemma areThereAnyAvailableWorker_false {ws : List (Option Nat)}
    (h : ws = [] ∨ ∀ w ∈ ws, w = none) : areThereAnyAvailableWorker ws = false := by
  cases h with
  | inl h => simp [h, areThereAnyAvailableWorker]
  | inr h =>
    unfold areThereAnyAvailableWorker
    split
    · rfl
    · simp only [List.any_eq_false]
      intro w hw
      simp [h w hw]

/-- C1: Tasks are executed in FIFO submission order: `AddTask` appends at the
queue tail and `WorkerFn` removes from the head, so for every sequence of
driving operations (submissions and worker passes, no resize) on a scheduler
with exactly one worker, the tasks executed so far followed by the tasks still
queued equal the submitted tasks in submission order. -/
theorem fifo_single_worker (th : Nat) (s : Sched) (ops : List SchedOp)
    (hw : s.workers = [some th]) (hq : s.taskQueue = []) :
    (runOps ⟨s, [], []⟩ ops).executed
        ++ (runOps ⟨s, [], []⟩ ops).sched.taskQueue.map Prod.snd
      = submits ops := by
  have hinv := runOps_invariant ops ⟨s, [], []⟩ (by simp [hq])
  have hacc := runOps_accepted_of_available ops ⟨s, [], []⟩
    (by simp [hw, areThereAnyAvailableWorker])
  rw [hinv, hacc]
  simp

/-- A concrete scheduler with one live worker, growth disabled, bound manager. -/
def oneWorkerSched : Sched :=
  { workers := [some 5], taskQueue := [], freeTaskPool := [], nextSlot := 0,
    allowGrowth := false, threadMgr := some 1 }

/-- A concrete scheduler whose worker slots are all null. -/
def nullWorkersSched : Sched :=
  { workers := [none, none], taskQueue := [(0, 7)], freeTaskPool := [3], nextSlot := 4,
    allowGrowth := true, threadMgr := none }

/-- A thread-creation oracle that always succeeds. -/
def ctOk : Nat → Except String Nat := fun i => .ok (100 + i)

/-- Witness: a concrete three-task single-worker run executes in submission
order. -/
theorem fifo_single_worker_witness :
    (runOps ⟨oneWorkerSched, [], []⟩
        [.submit 10, .submit 11, .work 0, .submit 12, .work 0, .work 0]).executed
        ++ (runOps ⟨oneWorkerSched, [], []⟩
        [.submit 10, .submit 11, .work 0, .submit 12, .work 0, .work 0]).sched.taskQueue.map
          Prod.snd
      = submits [.submit 10, .submit 11, .work 0, .submit 12, .work 0, .work 0] :=
  fifo_single_worker 5 oneWorkerSched
    [.submit 10, .submit 11, .work 0, .submit 12, .work 0, .work 0] rfl rfl

/-- C2: `Stop` first forces `SetWorkerCount(0)`, then executes every
still-queued task synchronously in original FIFO order, then releases all
slots; hence every accepted task is executed either by a worker or during
`Stop`. -/
theorem stop_runs_remaining_tasks (ct : Nat → Except String Nat) (r : RunState)
    (ops : List SchedOp)
    (hinv : r.executed ++ r.sched.taskQueue.map Prod.snd = r.accepted) :
    (stop ct (runOps r ops).sched).2
        = (runOps r ops).sched.taskQueue.map Prod.snd ∧
    (runOps r ops).executed ++ (stop ct (runOps r ops).sched).2
        = (runOps r ops).accepted ∧
    (stop ct (runOps r ops).sched).1.workers = [] ∧
    (stop ct (runOps r ops).sched).1.taskQueue = [] ∧
    (stop ct (runOps r ops).sched).1.freeTaskPool = [] := by
  have hq : ∀ s : Sched, (stop ct s).2 = s.taskQueue.map Prod.snd := by
    intro s
    simp [stop, setWorkerCount_taskQueue]
  have hw : ∀ s : Sched, (stop ct s).1.workers = [] := by
    intro s
    simp [stop, setWorkerCount_zero]
  refine ⟨hq _, ?_, hw _, rfl, rfl⟩
  rw [hq _]
  exact runOps_invariant ops r hinv

/-- Witness: stopping a concrete run with two still-queued tasks executes them
in FIFO order and releases everything. -/
theorem stop_runs_remaining_tasks_witness :
    (stop ctOk (runOps ⟨oneWorkerSched, [], []⟩
        [.submit 1, .submit 2, .work 0, .submit 3]).sched).2
        = (runOps ⟨oneWorkerSched, [], []⟩
        [.submit 1, .submit 2, .work 0, .submit 3]).sched.taskQueue.map Prod.snd ∧
    (runOps ⟨oneWorkerSched, [], []⟩
        [.submit 1, .submit 2, .work 0, .submit 3]).executed
        ++ (stop ctOk (runOps ⟨oneWorkerSched, [], []⟩
        [.submit 1, .submit 2, .work 0, .submit 3]).sched).2
        = (runOps ⟨oneWorkerSched, [], []⟩
        [.submit 1, .submit 2, .work 0, .submit 3]).accepted ∧
    (stop ctOk (runOps ⟨oneWorkerSched, [], []⟩
        [.submit 1, .submit 2, .work 0, .submit 3]).sched).1.workers = [] ∧
    (stop ctOk (runOps ⟨oneWorkerSched, [], []⟩
        [.submit 1, .submit 2, .work 0, .submit 3]).sched).1.taskQueue = [] ∧
    (stop ctOk (runOps ⟨oneWorkerSched, [], []⟩
        [.submit 1, .submit 2, .work 0, .submit 3]).sched).1.freeTaskPool = [] :=
  stop_runs_remaining_tasks ctOk ⟨oneWorkerSched, [], []⟩
    [.submit 1, .submit 2, .work 0, .submit 3] rfl

/-- C3: with growth disabled, any growing `SetWorkerCount` fails with the
`GrowthDisabled` message and changes nothing; after `EnableGrowth(true)` the
same call (with a live binding and succeeding thread creation) succeeds and
reaches the target count. -/
theorem setWorkerCount_growth_gating (ct : Nat → Except String Nat) (s : Sched)
    (count m : Nat) (hlt : s.workers.length < count) (hg : s.allowGrowth = false)
    (hm : s.threadMgr = some m) (hok : ∀ j, ∃ th, ct j = .ok th) :
    setWorkerCount ct s count = (s, some growthDisabledMsg) ∧
    (setWorkerCount ct (enableGrowth s true) count).2 = none ∧
    (setWorkerCount ct (enableGrowth s true) count).1.workers.length = count := by
  have hne : s.workers.length ≠ count := Nat.ne_of_lt hlt
  have hgl := growLoop_ok ct (count - s.workers.length) s.workers.length s.workers hok
  refine ⟨?_, ?_, ?_⟩
  · unfold setWorkerCount
    simp [hne, hlt, hg]
  · unfold setWorkerCount enableGrowth
    simp only []
    simp [hne, hlt, hm, hgl.1]
  · unfold setWorkerCount enableGrowth
    simp only []
    simp [hne, hlt, hm]
    rw [hgl.2]
    omega

/-- Witness: growing the one-worker scheduler to 2 fails with `GrowthDisabled`
and leaves it untouched; after enabling growth the same call succeeds. -/
theorem setWorkerCount_growth_gating_witness :
    setWorkerCount ctOk oneWorkerSched 2 = (oneWorkerSched, some growthDisabledMsg) ∧
    (setWorkerCount ctOk (enableGrowth oneWorkerSched true) 2).2 = none ∧
    (setWorkerCount ctOk (enableGrowth oneWorkerSched true) 2).1.workers.length = 2 :=
  setWorkerCount_growth_gating ctOk oneWorkerSched 2 1 (by decide) rfl rfl
    (fun j => ⟨100 + j, rfl⟩)

/-- C4: with an empty pool or all-null slots, `AddTask` fails with the
`NoAvailableWorkers` message (so the state, in particular the queue, is
unchanged); in particular `AddTask` after `SetWorkerCount(0)` fails this way. -/
theorem addTask_empty_pool_rejection (ct : Nat → Except String Nat) (s : Sched)
    (t : SlimTask) (h : s.workers = [] ∨ ∀ w ∈ s.workers, w = none) :
    addTask s t = .error noAvailableWorkersMsg ∧
    addTask (setWorkerCount ct s 0).1 t = .error noAvailableWorkersMsg := by
  constructor
  · unfold addTask
    simp [areThereAnyAvailableWorker_false h]
  · unfold addTask
    simp [areThereAnyAvailableWorker_false (Or.inl (setWorkerCount_zero ct s))]

/-- Witness: `AddTask` on the all-null pool, and after `SetWorkerCount(0)`,
fails with `NoAvailableWorkers`. -/
theorem addTask_empty_pool_rejection_witness :
    addTask nullWorkersSched 9 = .error noAvailableWorkersMsg ∧
    addTask (setWorkerCount ctOk nullWorkersSched 0).1 9
      = .error noAvailableWorkersMsg :=
  addTask_empty_pool_rejection ctOk nullWorkersSched 9 (Or.inr (by decide))

/-- C8: if the `k`-th thread creation of a growing `SetWorkerCount` fails after
`k` successes, the resize stops, returns that failure, and the worker count
afterward is the old count plus the `k` workers already created. -/
theorem setWorkerCount_partial_growth (ct : Nat → Except String Nat) (s : Sched)
    (count k m : Nat) (e : String) (hg : s.allowGrowth = true)
    (hm : s.threadMgr = some m) (hlt : s.workers.length < count)
    (hk : k < count - s.workers.length)
    (hsucc : ∀ j, j < k → ∃ th, ct (s.workers.length + j) = .ok th)
    (hfail : ct (s.workers.length + k) = .error e) :
    (setWorkerCount ct s count).2 = some e ∧
    (setWorkerCount ct s count).1.workers.length = s.workers.length + k := by
  have hne : s.workers.length ≠ count := Nat.ne_of_lt hlt
  have hgl := growLoop_fail ct (count - s.workers.length) k s.workers.length
    s.workers e hk hsucc hfail
  constructor
  · unfold setWorkerCount
    simp [hne, hlt, hg, hm, hgl.1]
  · unfold setWorkerCount
    simp [hne, hlt, hg, hm]
    rw [hgl.2]

/-- A thread-creation oracle that fails from the third worker on. -/
def ctFailAt2 : Nat → Except String Nat :=
  fun i => if i < 2 then .ok (100 + i) else .error "CreateThread failed"

/-- Witness: growing the (growth-enabled) one-worker scheduler to 4 with an
oracle failing at index 2 returns that failure and keeps the one extra worker
created before it. -/
theorem setWorkerCount_partial_growth_witness :
    (setWorkerCount ctFailAt2 (enableGrowth oneWorkerSched true) 4).2
      = some "CreateThread failed" ∧
    (setWorkerCount ctFailAt2 (enableGrowth oneWorkerSched true) 4).1.workers.length
      = (enableGrowth oneWorkerSched true).workers.length + 1 :=
  setWorkerCount_partial_growth ctFailAt2 (enableGrowth oneWorkerSched true) 4 1 1
    "CreateThread failed" rfl rfl (by decide) (by decide)
    (fun j hj => ⟨101, by obtain rfl := Nat.lt_one_iff.mp hj; rfl⟩) rfl

/-- C10: `AddTask` never consults the provisioning binding: whatever the
binding (even expired, `none`), a submission with at least one non-null worker
slot succeeds and appends the task at the queue tail. -/
theorem addTask_ignores_provisioning (s : Sched) (t : SlimTask) (b : Option Nat)
    (hp : s.workers.any (fun w => w.isSome) = true) :
    ∃ s', addTask { s with threadMgr := b } t = .ok s' ∧
      s'.taskQueue.map Prod.snd = s.taskQueue.map Prod.snd ++ [t] ∧
      s'.workers = s.workers ∧ s'.threadMgr = b := by
  have hav : areThereAnyAvailableWorker s.workers = true := by
    cases hws : s.workers with
    | nil => rw [hws] at hp; simp at hp
    | cons a l =>
      rw [hws] at hp
      simp [areThereAnyAvailableWorker, hp]
  obtain ⟨s', hs'⟩ := addTask_ok_of_available (s := { s with threadMgr := b }) t hav
  obtain ⟨h1, h2, h3⟩ := addTask_ok_effect hs'
  exact ⟨s', hs', by simpa using h3, by simpa using h1, by simpa using h2⟩

/-- Witness: submitting to the one-worker scheduler with an expired binding
succeeds and enqueues the task. -/
theorem addTask_ignores_provisioning_witness :
    ∃ s', addTask { oneWorkerSched with threadMgr := none } 42 = .ok s' ∧
      s'.taskQueue.map Prod.snd = oneWorkerSched.taskQueue.map Prod.snd ++ [42] ∧
      s'.workers = oneWorkerSched.workers ∧ s'.threadMgr = none :=
  addTask_ignores_provisioning oneWorkerSched 42 none (by decide)

/-- Lemma: `CanWorkerContinueWorking` is false exactly when the worker's id is out of
range or its slot is null. -/
lemma canWorkerContinueWorking_eq_false (s : Sched) (id : Nat) :
    canWorkerContinueWorking s id = false ↔
      s.workers.length ≤ id ∨ s.workers.getD id none = none := by
  unfold canWorkerContinueWorking
  by_cases hlt : id < s.workers.length
  · have h1 : decide (id < s.workers.length) = true := by simpa using hlt
    rw [h1, Bool.true_and]
    cases hg : s.workers.getD id none with
    | none => simp
    | some w =>
      simp
      omega
  · have h1 : decide (id < s.workers.length) = false := by simpa using hlt
    rw [h1, Bool.false_and]
    simp
    exact Or.inl (Nat.le_of_not_lt hlt)

/-- The wait loop leaves exactly at the first snapshot whose queue is non-empty
or whose worker is no longer eligible, having re-checked (and passed) every
earlier wake. -/
lemma waitLoop_spec (id : Nat) :
    ∀ (snaps : List Sched) (sExit : Sched), waitLoop id snaps = some sExit →
      ∃ pre post, snaps = pre ++ sExit :: post ∧
        (∀ x ∈ pre, x.taskQueue.isEmpty = true ∧
          canWorkerContinueWorking x id = true) ∧
        (sExit.taskQueue.isEmpty = false ∨
          canWorkerContinueWorking sExit id = false) := by
  intro snaps
  induction snaps with
  | nil => intro sExit h; simp [waitLoop] at h
  | cons a l ih =>
    intro sExit h
    rw [waitLoop] at h
    by_cases hc : (a.taskQueue.isEmpty && canWorkerContinueWorking a id) = true
    · rw [if_pos hc] at h
      obtain ⟨pre, post, h1, h2, h3⟩ := ih sExit h
      refine ⟨a :: pre, post, by rw [h1]; rfl, ?_, h3⟩
      intro x hx
      rcases List.mem_cons.mp hx with rfl | hx
      · exact ⟨(Bool.and_eq_true_iff.mp hc).1, (Bool.and_eq_true_iff.mp hc).2⟩
      · exact h2 x hx
    · rw [if_neg hc] at h
      cases h
      refine ⟨[], l, rfl, by simp, ?_⟩
      by_cases he : a.taskQueue.isEmpty = true
      · right
        by_cases hw : canWorkerContinueWorking a id = true
        · exact absurd (by simp [he, hw]) hc
        · simpa using hw
      · left; simpa using he

/-- C6: a worker re-validates its continuation eligibility after every wake of
the queue signal (the wait loop leaves at the first snapshot whose queue is
non-empty or whose eligibility fails, all earlier wakes having re-checked and
passed); a loop pass terminates exactly when the worker's id is out of range or
its slot is null; and from a state whose slot is absent the pass terminates
with the state untouched, dequeuing and executing nothing. -/
theorem workerFn_revalidates_and_terminates (s sExit : Sched) (id : Nat)
    (snaps : List Sched) (hExit : waitLoop id snaps = some sExit) :
    ((workerStep s id).isTerminated = true ↔
      (s.workers.length ≤ id ∨ s.workers.getD id none = none)) ∧
    (s.workers.getD id none = none → workerStep s id = .terminated s) ∧
    (∃ pre post, snaps = pre ++ sExit :: post ∧
      (∀ x ∈ pre, x.taskQueue.isEmpty = true ∧
        canWorkerContinueWorking x id = true) ∧
      (sExit.taskQueue.isEmpty = false ∨
        canWorkerContinueWorking sExit id = false)) := by
  refine ⟨?_, ?_, waitLoop_spec id snaps sExit hExit⟩
  · rw [← canWorkerContinueWorking_eq_false]
    by_cases hc : canWorkerContinueWorking s id = false
    · simp [workerStep, hc, WorkerStepResult.isTerminated]
    · simp only [workerStep, hc, if_false]
      cases hq : s.taskQueue with
      | nil => simp [WorkerStepResult.isTerminated, hc]
      | cons hd tl =>
        cases hd with
        | mk slot t => simp [WorkerStepResult.isTerminated, hc]
  · intro habs
    have hc : canWorkerContinueWorking s id = false :=
      (canWorkerContinueWorking_eq_false s id).mpr (Or.inr habs)
    simp [workerStep, hc]

/-- Witness: a concrete wait over two wakes leaves at the second snapshot,
where the worker's slot has become null, and the pass from that snapshot
terminates. -/
theorem workerFn_revalidates_and_terminates_witness :
    ((workerStep nullWorkersSched 0).isTerminated = true ↔
      (nullWorkersSched.workers.length ≤ 0 ∨
        nullWorkersSched.workers.getD 0 none = none)) ∧
    (nullWorkersSched.workers.getD 0 none = none →
      workerStep nullWorkersSched 0 = .terminated nullWorkersSched) ∧
    (∃ pre post, [oneWorkerSched, nullWorkersSched] = pre ++ nullWorkersSched :: post ∧
      (∀ x ∈ pre, x.taskQueue.isEmpty = true ∧
        canWorkerContinueWorking x 0 = true) ∧
      (nullWorkersSched.taskQueue.isEmpty = false ∨
        canWorkerContinueWorking nullWorkersSched 0 = false)) :=
  workerFn_revalidates_and_terminates nullWorkersSched nullWorkersSched 0
    [oneWorkerSched, nullWorkersSched] rfl

/-- Provisioning-binding state: whether `m_OnManagerActivation` is connected
(and to which manager instance's activation event), whether `m_OnNewManager`
is connected, and the weak `m_ThreadManager` reference. -/
structure SubState where
  actConn : Bool
  actTarget : Option Nat
  newMgrConn : Bool
  boundMgr : Option Nat
  deriving DecidableEq, Repr

/-- One subscription/binding primitive of the rebinding protocol. -/
inductive SubOp where
  | disconnectAct
  | connectAct (m : Nat)
  | disconnectNew
  | connectNew
  | setMgr (m : Option Nat)
  deriving DecidableEq, Repr

/-- Effect of one primitive on the binding state. -/
def applySubOp (st : SubState) : SubOp → SubState
  | .disconnectAct => { st with actConn := false, actTarget := none }
  | .connectAct m => { st with actConn := true, actTarget := some m }
  | .disconnectNew => { st with newMgrConn := false }
  | .connectNew => { st with newMgrConn := true }
  | .setMgr m => { st with boundMgr := m }

/-- Run a list of primitives. -/
def runSubOps (st : SubState) : List SubOp → SubState
  | [] => st
  | op :: rest => runSubOps (applySubOp st op) rest

/-- The states traversed while running a list of primitives, first and last
included. -/
def statesAlong (st : SubState) : List SubOp → List SubState
  | [] => [st]
  | op :: rest => st :: statesAlong (applySubOp st op) rest

/-- Embeds `SlimTaskScheduler::OnNewManager` (lines 145-155), matching interface:
store the new manager reference (line 151), disconnect the activation
subscription ("double check we are not connected", line 152), connect it to
the new manager's activation event (line 153), and disconnect the new-manager
subscription (line 154). -/
def onNewManagerOps (m : Nat) : List SubOp :=
  [.setMgr (some m), .disconnectAct, .connectAct m, .disconnectNew]

/-- Embeds `SlimTaskScheduler::OnManagerActivation` (lines 157-184) with
`active = false`. With a replacement manager (lines 164-170): disconnect the
activation subscription, connect it to the replacement's activation event,
store the reference. Without one (lines 171-183): disconnect the activation
subscription, disconnect the new-manager subscription ("double check") and
connect it to the application's interface-activation event. -/
def onManagerActivationOps (newMgr : Option Nat) : List SubOp :=
  match newMgr with
  | some m => [.disconnectAct, .connectAct m, .setMgr (some m)]
  | none => [.disconnectAct, .disconnectNew, .connectNew]

/-- At most one of the two subscriptions is connected. -/
def atMostOneSub (st : SubState) : Bool :=
  !(st.actConn && st.newMgrConn)

/-- Trace check: every connect of a kind is preceded, within the list, by a
disconnect of that same kind with no connect of it in between. `okAct`/`okNew`
record whether that kind has been disconnected since it was last connected. -/
def disconnectBeforeConnect (okAct okNew : Bool) : List SubOp → Bool
  | [] => true
  | .disconnectAct :: tr => disconnectBeforeConnect true okNew tr
  | .connectAct _ :: tr => okAct && disconnectBeforeConnect false okNew tr
  | .disconnectNew :: tr => disconnectBeforeConnect okAct true tr
  | .connectNew :: tr => okNew && disconnectBeforeConnect okAct false tr
  | .setMgr _ :: tr => disconnectBeforeConnect okAct okNew tr

/-- C7: each notification handler preserves "at most one of the two
subscriptions is active" (the activation handler can only run while its
subscription is connected), and inside each handler every connect of a given
kind is preceded by a disconnect of that kind. -/
theorem subscription_exclusivity (st : SubState) (m : Nat) (mo : Option Nat)
    (hinv : atMostOneSub st = true) :
    atMostOneSub (runSubOps st (onNewManagerOps m)) = true ∧
    (st.actConn = true →
      atMostOneSub (runSubOps st (onManagerActivationOps mo)) = true) ∧
    disconnectBeforeConnect false false (onNewManagerOps m) = true ∧
    disconnectBeforeConnect false false (onManagerActivationOps mo) = true := by
  refine ⟨?_, ?_, rfl, ?_⟩
  · simp [onNewManagerOps, runSubOps, applySubOp, atMostOneSub]
  · intro hact
    cases mo with
    | some m2 =>
      have hnew : st.newMgrConn = false := by
        by_cases h : st.newMgrConn = true
        · rw [atMostOneSub, hact, h] at hinv
          simp at hinv
        · simpa using h
      simp [onManagerActivationOps, runSubOps, applySubOp, atMostOneSub, hnew]
    | none => simp [onManagerActivationOps, runSubOps, applySubOp, atMostOneSub]
  · cases mo <;> rfl

/-- A concrete bound binding state. -/
def boundState : SubState :=
  { actConn := true, actTarget := some 1, newMgrConn := false, boundMgr := some 1 }

/-- Witness: running either handler from a concrete bound state keeps at most
one subscription active, and both handlers disconnect before connecting. -/
theorem subscription_exclusivity_witness :
    atMostOneSub (runSubOps boundState (onNewManagerOps 2)) = true ∧
    (boundState.actConn = true →
      atMostOneSub (runSubOps boundState (onManagerActivationOps (some 3))) = true) ∧
    disconnectBeforeConnect false false (onNewManagerOps 2) = true ∧
    disconnectBeforeConnect false false (onManagerActivationOps (some 3)) = true :=
  subscription_exclusivity boundState 2 (some 3) rfl

/-- C9: a deactivation notification carrying a live replacement instance
rebinds directly: the handler disconnects the activation subscription,
reconnects it to the replacement and stores the new reference, and at no
intermediate point is the global new-manager subscription active (the binding
never passes through the Unbound state). -/
theorem rebind_without_unbound (st : SubState) (m : Nat)
    (hb : st.newMgrConn = false) :
    (∀ st' ∈ statesAlong st (onManagerActivationOps (some m)),
      st'.newMgrConn = false) ∧
    runSubOps st (onManagerActivationOps (some m))
      = { actConn := true, actTarget := some m, newMgrConn := false,
          boundMgr := some m } := by
  constructor
  · intro st' hst'
    simp [onManagerActivationOps, statesAlong, applySubOp] at hst'
    rcases hst' with rfl | rfl | rfl | rfl <;> simp [hb]
  · simp [onManagerActivationOps, runSubOps, applySubOp, hb]

/-- Witness: rebinding the concrete bound state to replacement manager 2
never activates the new-manager subscription and ends rebound to 2. -/
theorem rebind_without_unbound_witness :
    (∀ st' ∈ statesAlong boundState (onManagerActivationOps (some 2)),
      st'.newMgrConn = false) ∧
    runSubOps boundState (onManagerActivationOps (some 2))
      = { actConn := true, actTarget := some 2, newMgrConn := false,
          boundMgr := some 2 } :=
  rebind_without_unbound boundState 2 rfl

/-- The three mutexes of the scheduler. -/
inductive LockId where
  | workersMutex
  | queueMutex
  | freePoolMutex
  deriving DecidableEq, Repr

/-- Lock events and data accesses of a code path, in program order. -/
inductive LockEv where
  | acq (l : LockId) (shared : Bool)
  | rel (l : LockId)
  | workersAccess
  | queueAccess
  | freePoolAccess
  deriving DecidableEq, Repr

/-- Does every observation/mutation of `m_TaskWorkers` in the trace happen
while `m_TaskWorkersMutex` is held? `held` is the multiset of held locks. -/
def workersAccessesLocked (held : List LockId) : List LockEv → Bool
  | [] => true
  | .acq l _ :: tr => workersAccessesLocked (l :: held) tr
  | .rel l :: tr => workersAccessesLocked (held.erase l) tr
  | .workersAccess :: tr =>
    held.contains .workersMutex && workersAccessesLocked held tr
  | .queueAccess :: tr => workersAccessesLocked held tr
  | .freePoolAccess :: tr => workersAccessesLocked held tr

/-- The locks still held at the end of the trace. -/
def heldAtEnd (held : List LockId) : List LockEv → List LockId
  | [] => held
  | .acq l _ :: tr => heldAtEnd (l :: held) tr
  | .rel l :: tr => heldAtEnd (held.erase l) tr
  | _ :: tr => heldAtEnd held tr

/-- Checks that `m_TaskWorkersMutex` is never acquired while `m_TaskQueueMutex` is held,
so whenever both are held the worker-pool lock was taken first. -/
def workersLockFirst (held : List LockId) : List LockEv → Bool
  | [] => true
  | .acq l _ :: tr =>
    !(decide (l = LockId.workersMutex) && held.contains .queueMutex)
      && workersLockFirst (l :: held) tr
  | .rel l :: tr => workersLockFirst (held.erase l) tr
  | _ :: tr => workersLockFirst held tr

/-- Lock/access trace of the `AddTask` success path (lines 88-118): shared
worker-pool lock for the whole call (line 90, released at scope exit), the
availability check (line 91), the free-pool lock around slot reuse
(lines 98-108), then the queue lock around the push (lines 112-114). -/
def addTaskTrace : List LockEv :=
  [.acq .workersMutex true, .workersAccess,
   .acq .freePoolMutex false, .freePoolAccess, .rel .freePoolMutex,
   .acq .queueMutex false, .queueAccess, .rel .queueMutex,
   .rel .workersMutex]

/-- Lock/access trace of the shrink path of `SetWorkerCount` (lines 28-85) for
a pool of one worker shrinking to zero: exclusive pool lock (line 30), size
checks (lines 31 and 37), the loop condition (line 63), read and reset of the
tail slot (lines 65-67), unlock (line 68), the join loop, then line 81 locks
`m_TaskQueueMutex` — not the worker-pool mutex — before the erase of the pool
slot (line 82) and the re-checked loop condition (line 63), and the function
returns (line 85) without releasing it. -/
def shrinkTrace : List LockEv :=
  [.acq .workersMutex false, .workersAccess, .workersAccess,
   .workersAccess, .workersAccess, .rel .workersMutex,
   .acq .queueMutex false, .workersAccess, .workersAccess]

/-- C5 (code bug in the source): on the shrink path the worker pool is erased
while holding only the task-queue mutex — line 81 locks `m_TaskQueueMutex`
instead of `m_TaskWorkersMutex` before the erase at line 82 — and that mutex
is still held when the function returns at line 85; by contrast the submission
path does keep every pool access under the pool lock and takes the pool lock
before the queue lock. -/
theorem shrink_erases_pool_without_pool_lock :
    workersAccessesLocked [] shrinkTrace = false ∧
    heldAtEnd [] shrinkTrace = [.queueMutex] ∧
    workersAccessesLocked [] addTaskTrace = true ∧
    workersLockFirst [] addTaskTrace = true := by
  decide

end Greaper
